import Mathlib

/-!
Formal model of the VesselTreeGenerator volumetric processing pipeline
(`VesselTreeGenerator.py`): the preprocessing stages (median filter, sigmoid
contrast enhancement), the interactive threshold segmentation and
largest-island finalization driven by the widget's state, and the signed
Maurer distance transform.  Volumes are embedded as index functions with
geometric metadata; the host scene is an association list of named nodes;
widget callbacks become state-transition functions returning an optional
error together with the successor state.
-/

namespace VesselTree

/-- A 3D image: dimensions, per-axis spacing (mm/voxel) and voxel data,
indexed as `data i j k` with `i` along x (fastest axis), `j` along y,
`k` along z. -/
structure GVol (α : Type) where
  nx : ℕ
  ny : ℕ
  nz : ℕ
  sx : ℚ
  sy : ℚ
  sz : ℚ
  data : ℕ → ℕ → ℕ → α

/-- Scalar volume with rational intensities (models the float voxel data). -/
abbrev Vol := GVol ℚ

/-- Real-valued volume (outputs of the sigmoid and distance filters). -/
abbrev RVol := GVol ℝ

/-- Binary segment mask. -/
abbrev Mask := GVol Bool

/-- Index bounds predicate. -/
def GVol.inB {α : Type} (v : GVol α) (i j k : ℕ) : Prop :=
  i < v.nx ∧ j < v.ny ∧ k < v.nz

instance {α : Type} (v : GVol α) (i j k : ℕ) : Decidable (v.inB i j k) :=
  instDecidableAnd

/-- The finite set of in-bounds voxel indices. -/
def voxels {α : Type} (v : GVol α) : Finset (ℕ × ℕ × ℕ) :=
  Finset.range v.nx ×ˢ Finset.range v.ny ×ˢ Finset.range v.nz

/-- Voxel access by triple. -/
def at3 {α : Type} (v : GVol α) (p : ℕ × ℕ × ℕ) : α :=
  v.data p.1 p.2.1 p.2.2

theorem mem_voxels {α : Type} (v : GVol α) (p : ℕ × ℕ × ℕ) :
    p ∈ voxels v ↔ p.1 < v.nx ∧ p.2.1 < v.ny ∧ p.2.2 < v.nz := by
  simp [voxels]

/-- Error kinds of the pipeline (§7 of the design): `invalidInput` models the
`ValueError`s raised for missing/null nodes, `typeError` the `TypeError` for a
wrongly-typed node, `invalidPipelineState` the out-of-sequence guards of the
finalize step. -/
inductive PErr where
  | invalidInput
  | invalidRange
  | notBinaryVolume
  | invalidPipelineState
  | typeError
  deriving DecidableEq

/-- Whether an `Except` result succeeded. -/
def exceptOk {ε α : Type} : Except ε α → Bool
  | .ok _ => true
  | .error _ => false

/- ================  Median filter stage  ================ -/

/-- Clamp a (possibly negative) index to `[0, n-1]`, replicating edge voxels. -/
def clampIdx (x : ℤ) (n : ℕ) : ℕ :=
  (max 0 (min x ((n : ℤ) - 1))).toNat

/-- Neighborhood offsets `-r .. r`. -/
def offsets (r : ℕ) : List ℤ :=
  (List.range (2 * r + 1)).map (fun t => (t : ℤ) - (r : ℤ))

/-- Values of the cubic neighborhood of radius `r` around `(i,j,k)`,
edge-replicated at the boundary. -/
def neighborhoodVals (v : Vol) (r : ℕ) (i j k : ℕ) : List ℚ :=
  (offsets r).flatMap fun dk =>
    (offsets r).flatMap fun dj =>
      (offsets r).map fun di =>
        v.data (clampIdx ((i : ℤ) + di) v.nx) (clampIdx ((j : ℤ) + dj) v.ny)
          (clampIdx ((k : ℤ) + dk) v.nz)

/-- Median of a list of rationals (middle element after sorting). -/
def medianOfList (l : List ℚ) : ℚ :=
  (l.mergeSort (fun a b => decide (a ≤ b))).getD (l.length / 2) 0

/-- Modelled from the spec: `sitk.MedianImageFilter` is not part of the
repository; §4.1 specifies that each output voxel is the median of the cubic
neighborhood of the given isotropic radius, intensity-clamped at boundaries by
replicating edge voxels, with identical dimensions/geometry to the input. -/
def medianVol (v : Vol) (r : ℕ) : Vol :=
  { v with data := fun i j k =>
      if v.inB i j k then medianOfList (neighborhoodVals v r i j k) else v.data i j k }

/- ================  Sigmoid filter stage  ================ -/

/-- Modelled from the spec: `sitk.SigmoidImageFilter` is not part of the
repository; §4.2 specifies the per-voxel map
`O = (outMax - outMin) / (1 + exp (-(I - beta) / alpha)) + outMin`. -/
noncomputable def sigmoidVoxel (alpha beta outMin outMax x : ℝ) : ℝ :=
  (outMax - outMin) / (1 + Real.exp (-(x - beta) / alpha)) + outMin

/-- The sigmoid stage applied to every voxel of a volume (geometry preserved). -/
noncomputable def sigmoidVol (v : Vol) (alpha beta outMin outMax : ℝ) : RVol :=
  ⟨v.nx, v.ny, v.nz, v.sx, v.sy, v.sz,
    fun i j k => sigmoidVoxel alpha beta outMin outMax ((v.data i j k : ℚ) : ℝ)⟩

/- ================  Signed Maurer distance stage  ================ -/

/-- Node classes relevant to `MaurerDistance`'s `IsA` check. -/
inductive NodeKind where
  | scalarVolume
  | labelMapVolume
  deriving DecidableEq

/-- A scene volume node together with its MRML node class. -/
structure VolNode where
  kind : NodeKind
  vol : Vol

/-- Effective per-axis spacing of the distance filter: the volume's spacing
when `useImageSpacing` is set, else unit (voxel-count) spacing. -/
def effSpacing (v : Vol) (useImageSpacing : Bool) : ℚ × ℚ × ℚ :=
  if useImageSpacing then (v.sx, v.sy, v.sz) else (1, 1, 1)

/-- Squared physical distance between two voxel centers under spacing `s`. -/
def sqDist (s : ℚ × ℚ × ℚ) (p q : ℕ × ℕ × ℕ) : ℚ :=
  (s.1 * (((p.1 : ℤ) - (q.1 : ℤ) : ℤ) : ℚ)) ^ 2 +
  (s.2.1 * (((p.2.1 : ℤ) - (q.2.1 : ℤ) : ℤ) : ℚ)) ^ 2 +
  (s.2.2 * (((p.2.2 : ℤ) - (q.2.2 : ℤ) : ℤ) : ℚ)) ^ 2

/-- Voxels belonging to the object (value different from the background value). -/
def objSet (v : Vol) (backgroundValue : ℚ) : Finset (ℕ × ℕ × ℕ) :=
  (voxels v).filter (fun p => at3 v p ≠ backgroundValue)

/-- Voxels belonging to the background. -/
def bgSet (v : Vol) (backgroundValue : ℚ) : Finset (ℕ × ℕ × ℕ) :=
  (voxels v).filter (fun p => at3 v p = backgroundValue)

/-- Minimal squared distance from `p` to a finite set of voxels (0 if empty). -/
def minSqDistTo (s : ℚ × ℚ × ℚ) (t : Finset (ℕ × ℕ × ℕ)) (p : ℕ × ℕ × ℕ) : ℚ :=
  if h : t.Nonempty then (t.image (sqDist s p)).min' (h.image _) else 0

/-- Modelled from the spec: `sitk.SignedMaurerDistanceMapImageFilter` is not
part of the repository; §4.6 and §3 specify a signed distance field holding,
per voxel, the distance to the nearest voxel of the complementary region, in
physical units when `useImageSpacing` is set, negative inside the object and
positive outside when `insideIsPositive` is false (and with the opposite signs
otherwise), squared when `squaredDistance` is set. -/
noncomputable def signedMaurer (v : Vol) (useImageSpacing squaredDistance : Bool)
    (backgroundValue : ℚ) (insideIsPositive : Bool) : RVol :=
  ⟨v.nx, v.ny, v.nz, v.sx, v.sy, v.sz, fun i j k =>
    let p := (i, j, k)
    let s := effSpacing v useImageSpacing
    if at3 v p ≠ backgroundValue then
      let m := minSqDistTo s (bgSet v backgroundValue) p
      let d : ℝ := if squaredDistance then (m : ℝ) else Real.sqrt (m : ℝ)
      if insideIsPositive then d else -d
    else
      let m := minSqDistTo s (objSet v backgroundValue) p
      let d : ℝ := if squaredDistance then (m : ℝ) else Real.sqrt (m : ℝ)
      if insideIsPositive then -d else d⟩

/- ================  Logic-layer operations  ================ -/

/-- `VesselTreeGeneratorLogic.applyMedianFilter` (source lines 610-637): raises
`ValueError` when either endpoint volume is absent, else writes the
median-filtered image into the output node. -/
def applyMedianFilter (inputVolume outputVolume : Option Vol) (radius : ℕ) :
    Except PErr Vol :=
  match inputVolume, outputVolume with
  | some inp, some _ => .ok (medianVol inp radius)
  | _, _ => .error .invalidInput

/-- `VesselTreeGeneratorLogic.applySigmoidFilter` (source lines 639-666): raises
`ValueError` when either endpoint volume is absent, else applies the sigmoid
per voxel.  The source's default output range is `outputMinimum = 0`,
`outputMaximum = 1`; callers here pass the range explicitly. -/
noncomputable def applySigmoidFilter (inputVolume : Option Vol) (outputVolume : Option RVol)
    (alpha beta outputMinimum outputMaximum : ℝ) : Except PErr RVol :=
  match inputVolume, outputVolume with
  | some inp, some _ => .ok (sigmoidVol inp alpha beta outputMinimum outputMaximum)
  | _, _ => .error .invalidInput

/-- `VesselTreeGeneratorLogic.MaurerDistance` (source lines 668-699): raises
`ValueError` when either endpoint volume is absent, `TypeError` when the input
node is not a labelmap volume node, else runs the signed Maurer filter with the
source's parameters `UseImageSpacing = True`, `SquaredDistance = False`,
`BackgroundValue = 0`, `InsideIsPositive = False`.  binarity of the voxel
values is never checked. -/
noncomputable def MaurerDistance (inputVolume : Option VolNode) (outputVolume : Option Vol) :
    Except PErr RVol :=
  match inputVolume, outputVolume with
  | some inp, some _ =>
      if inp.kind = NodeKind.labelMapVolume then
        .ok (signedMaurer inp.vol true false 0 false)
      else
        .error .typeError
  | _, _ => .error .invalidInput

/- ================  Scene and preprocessing orchestration  ================ -/

/-- The MRML scene restricted to what `onApplySettings` touches: an ordered
list of named scalar-volume nodes. -/
abbrev Scene := List (String × Vol)

/-- `slicer.mrmlScene.GetFirstNodeByName`: first node with the given name. -/
def findNode : Scene → String → Option Vol
  | [], _ => none
  | (m, w) :: rest, n => if m = n then some w else findNode rest n

/-- Write into the first node with the given name, or append a fresh node of
that name (models the reuse-or-`AddNewNodeByClass` pattern of the widget). -/
def setFirstNode : Scene → String → Vol → Scene
  | [], n, v => [(n, v)]
  | (m, w) :: rest, n, v =>
      if m = n then (n, v) :: rest else (m, w) :: setFirstNode rest n v

/-- Outcome of a preprocessing run: the scene after the run and the processed
volume written into the output node. -/
structure PreprocessResult where
  scene : Scene
  processed : RVol

/-- `VesselTreeGeneratorWidget.onNoiseReductionLow` (source lines 276-279):
a checked low-noise-reduction button sets the median radius to 1. -/
def onNoiseReductionLow (checked : Bool) (medianRadius : Option ℕ) : Option ℕ :=
  if checked then some 1 else medianRadius

/-- `VesselTreeGeneratorWidget.onNoiseReductionHigh` (source lines 281-284):
a checked high-noise-reduction button sets the median radius to 2. -/
def onNoiseReductionHigh (checked : Bool) (medianRadius : Option ℕ) : Option ℕ :=
  if checked then some 2 else medianRadius

/-- `VesselTreeGeneratorWidget.onApplySettings` (source lines 286-341): raises
`ValueError` when input or output volume is unselected; when a median radius is
set, runs the median filter first — into the persistent `intermediate_median`
node when `saveIntermediateVolume` is on, else into a transient
`TempMedianForSigmoid` node that is removed after the run — and feeds its
result to the sigmoid filter; without a radius the sigmoid consumes the input
directly.  The sigmoid output (range 0..1, the source call site's defaults) is
written into the output node and returned. -/
noncomputable def onApplySettings (scene : Scene) (inputVolume outputVolume : Option Vol)
    (medianRadius : Option ℕ) (saveIntermediateVolume : Bool) (alpha beta : ℝ) :
    Except PErr PreprocessResult :=
  match inputVolume, outputVolume with
  | some inp, some _ =>
      match medianRadius with
      | none =>
          .ok ⟨scene, sigmoidVol inp alpha beta 0 1⟩
      | some r =>
          if saveIntermediateVolume then
            let med := medianVol inp r
            .ok ⟨setFirstNode scene "intermediate_median" med, sigmoidVol med alpha beta 0 1⟩
          else
            let med := medianVol inp r
            let scene1 := scene ++ [("TempMedianForSigmoid", med)]
            .ok ⟨scene1.dropLast, sigmoidVol med alpha beta 0 1⟩
  | _, _ => .error .invalidInput

/- ================  Widget distance-analysis operation  ================ -/

/-- The segmentation node selected for distance analysis, with the labelmap
its segments export to (values `1..N` for a multi-segment source). -/
structure SegmentationNode where
  isSegmentationNode : Bool
  numberOfSegments : ℕ
  exportedLabelmap : Vol

/-- The binarization `sitk.Cast(LabelMapImg > 0, sitk.sitkUInt8)` performed by
`onComputeMaurerDistance` before the distance filter runs (source lines
563-567): foreground is any value greater than 0. -/
def binarizeLabelmap (v : Vol) : Vol :=
  { v with data := fun i j k => if 0 < v.data i j k then 1 else 0 }

/-- `VesselTreeGeneratorWidget.onComputeMaurerDistance` (source lines 522-584):
validates the selected segmentation node (present, of segmentation type, with
at least one segment) and the reference output volume, exports the segments to
a labelmap, enforces a binary labelmap by thresholding at 0, and runs
`MaurerDistance` on the binarized labelmap into a freshly created output node. -/
noncomputable def onComputeMaurerDistance (segmentationNode : Option SegmentationNode)
    (refVolume : Option Vol) : Except PErr RVol :=
  match segmentationNode with
  | none => .error .invalidInput
  | some seg =>
      if seg.isSegmentationNode = false then .error .typeError
      else
        match refVolume with
        | none => .error .invalidInput
        | some _ =>
            if seg.numberOfSegments < 1 then .error .invalidInput
            else
              let binary := binarizeLabelmap seg.exportedLabelmap
              MaurerDistance (some ⟨NodeKind.labelMapVolume, binary⟩)
                (some ⟨0, 0, 0, 1, 1, 1, fun _ _ _ => 0⟩)

/- ================  Threshold segmentation  ================ -/

/-- Modelled from the spec: the Segment Editor Threshold effect is not part of
the repository; §4.3 specifies that a voxel is 1 iff
`thresholdMin ≤ value ≤ thresholdMax` (here additionally false out of bounds). -/
def thresholdMask (v : Vol) (lo hi : ℚ) : Mask :=
  ⟨v.nx, v.ny, v.nz, v.sx, v.sy, v.sz, fun i j k =>
    decide (v.inB i j k ∧ lo ≤ v.data i j k ∧ v.data i j k ≤ hi)⟩

/- ================  Connected components (Islands effect)  ================ -/

/-- Linear (scan-order) index of voxel `(i,j,k)`: x fastest, then y, then z. -/
def encV {α : Type} (v : GVol α) (i j k : ℕ) : ℕ :=
  i + v.nx * (j + v.ny * k)

/-- Coordinates of a linear index. -/
def decode3 {α : Type} (v : GVol α) (n : ℕ) : ℕ × ℕ × ℕ :=
  (n % v.nx, (n / v.nx) % v.ny, (n / v.nx) / v.ny)

theorem encV_lt {α : Type} (v : GVol α) {i j k : ℕ}
    (hi : i < v.nx) (hj : j < v.ny) (hk : k < v.nz) :
    encV v i j k < v.nx * (v.ny * v.nz) := by
  have h1 : j + v.ny * k + 1 ≤ v.ny * (k + 1) := by
    have : (j + 1) + v.ny * k ≤ v.ny + v.ny * k := Nat.add_le_add_right hj _
    calc j + v.ny * k + 1 = (j + 1) + v.ny * k := by ring
      _ ≤ v.ny + v.ny * k := this
      _ = v.ny * (k + 1) := by ring
  have h2 : v.ny * (k + 1) ≤ v.ny * v.nz := Nat.mul_le_mul_left _ hk
  calc encV v i j k = i + v.nx * (j + v.ny * k) := rfl
    _ < v.nx + v.nx * (j + v.ny * k) := Nat.add_lt_add_right hi _
    _ = v.nx * (j + v.ny * k + 1) := by ring
    _ ≤ v.nx * (v.ny * v.nz) := Nat.mul_le_mul_left _ (le_trans h1 h2)

theorem decode3_encV {α : Type} (v : GVol α) {i j k : ℕ}
    (hi : i < v.nx) (hj : j < v.ny) (hk : k < v.nz) :
    decode3 v (encV v i j k) = (i, j, k) := by
  have hx0 : 0 < v.nx := Nat.pos_of_ne_zero (by omega)
  have hy0 : 0 < v.ny := Nat.pos_of_ne_zero (by omega)
  have hdiv : encV v i j k / v.nx = j + v.ny * k := by
    unfold encV
    rw [Nat.add_mul_div_left _ _ hx0, Nat.div_eq_of_lt hi, Nat.zero_add]
  unfold decode3 encV
  refine Prod.ext ?_ (Prod.ext ?_ ?_)
  · show (i + v.nx * (j + v.ny * k)) % v.nx = i
    rw [Nat.add_mul_mod_self_left, Nat.mod_eq_of_lt hi]
  · show (i + v.nx * (j + v.ny * k)) / v.nx % v.ny = j
    rw [show i + v.nx * (j + v.ny * k) = encV v i j k from rfl, hdiv,
      Nat.add_mul_mod_self_left, Nat.mod_eq_of_lt hj]
  · show (i + v.nx * (j + v.ny * k)) / v.nx / v.ny = k
    rw [show i + v.nx * (j + v.ny * k) = encV v i j k from rfl, hdiv,
      Nat.add_mul_div_left _ _ hy0, Nat.div_eq_of_lt hj, Nat.zero_add]

/-- Foreground test of a mask at a linear index. -/
def fgV (m : Mask) (n : ℕ) : Bool :=
  at3 m (decode3 m n)

/-- Face adjacency (6-connectivity): exactly one coordinate differs, by 1. -/
def faceAdj (a b : ℕ × ℕ × ℕ) : Prop :=
  (a.1 = b.1 ∧ a.2.1 = b.2.1 ∧ Nat.dist a.2.2 b.2.2 = 1) ∨
  (a.1 = b.1 ∧ Nat.dist a.2.1 b.2.1 = 1 ∧ a.2.2 = b.2.2) ∨
  (Nat.dist a.1 b.1 = 1 ∧ a.2.1 = b.2.1 ∧ a.2.2 = b.2.2)

instance (a b : ℕ × ℕ × ℕ) : Decidable (faceAdj a b) := by
  unfold faceAdj; infer_instance

theorem faceAdj_symm {a b : ℕ × ℕ × ℕ} (h : faceAdj a b) : faceAdj b a := by
  unfold faceAdj at h ⊢
  rcases h with ⟨h1, h2, h3⟩ | ⟨h1, h2, h3⟩ | ⟨h1, h2, h3⟩
  · exact Or.inl ⟨h1.symm, h2.symm, Nat.dist_comm a.2.2 b.2.2 ▸ h3⟩
  · exact Or.inr (Or.inl ⟨h1.symm, Nat.dist_comm a.2.1 b.2.1 ▸ h2, h3.symm⟩)
  · exact Or.inr (Or.inr ⟨Nat.dist_comm a.1 b.1 ▸ h1, h2.symm, h3.symm⟩)

/-- Modelled from the spec: the island structure of §4.4 — foreground voxels
of a binary volume under 6-connectivity (face-adjacent neighbors), as a graph
on linear voxel indices. -/
def islandGraph (m : Mask) : SimpleGraph (Fin (m.nx * (m.ny * m.nz))) where
  Adj a b := a ≠ b ∧ fgV m a.val = true ∧ fgV m b.val = true ∧
    faceAdj (decode3 m a.val) (decode3 m b.val)
  symm := by
    intro a b h
    exact ⟨h.1.symm, h.2.2.1, h.2.1, faceAdj_symm h.2.2.2⟩
  loopless := by
    intro a h
    exact h.1 rfl

instance (m : Mask) : DecidableRel (islandGraph m).Adj := fun a b =>
  inferInstanceAs (Decidable (_ ∧ _ ∧ _ ∧ _))

/-- Size (voxel count) of the island containing vertex `a`. -/
def compSize (m : Mask) (a : Fin (m.nx * (m.ny * m.nz))) : ℕ :=
  (Finset.univ.filter (fun b => (islandGraph m).Reachable a b)).card

/-- The foreground vertices of a mask. -/
def fgVerts (m : Mask) : Finset (Fin (m.nx * (m.ny * m.nz))) :=
  Finset.univ.filter (fun a => fgV m a.val = true)

/-- Modelled from the spec: the Segment Editor Islands effect in
`KEEP_LARGEST_ISLAND` mode is not part of the repository; §4.4 specifies that
`keepLargestComponent` labels the 6-connected components, keeps only the label
with the maximum voxel count — ties broken by lowest label id, i.e. by the
first-encountered voxel in scan order — and clears every other foreground
voxel; an all-background input passes through unchanged.  The `MinimumSize`
parameter set at the call site does not enter the keep-largest semantics. -/
def keepLargestIsland (m : Mask) (minimumSize : ℕ) : Mask :=
  if h : (fgVerts m).Nonempty then
    let maxSize := ((fgVerts m).image (compSize m)).max' (h.image _)
    let winners := (fgVerts m).filter (fun a => compSize m a = maxSize)
    have hw : winners.Nonempty := by
      obtain ⟨a, ha, hs⟩ := Finset.mem_image.mp (((fgVerts m).image (compSize m)).max'_mem (h.image _))
      exact ⟨a, Finset.mem_filter.mpr ⟨ha, hs⟩⟩
    let r := winners.min' hw
    ⟨m.nx, m.ny, m.nz, m.sx, m.sy, m.sz, fun i j k =>
      if hb : i < m.nx ∧ j < m.ny ∧ k < m.nz then
        decide ((islandGraph m).Reachable r ⟨encV m i j k, encV_lt m hb.1 hb.2.1 hb.2.2⟩)
      else false⟩
  else m

/- ================  Widget segmentation state machine  ================ -/

/-- Smallest voxel value of a volume (`GetImageData().GetScalarRange()` low). -/
def volLo (v : Vol) : ℚ :=
  if h : (voxels v).Nonempty then ((voxels v).image (at3 v)).min' (h.image _) else 0

/-- Largest voxel value of a volume (`GetScalarRange()` high). -/
def volHi (v : Vol) : ℚ :=
  if h : (voxels v).Nonempty then ((voxels v).image (at3 v)).max' (h.image _) else 0

/-- The widget state driving the segmentation steps: the selected output
volume, presence of the segmentation node and its `Vessels` segment, the last
threshold slider values, the Threshold effect's parameters on the hidden
Segment Editor, the segment's committed mask, and the display flags. -/
structure WState where
  outputVolume : Option Vol
  segNode : Bool
  segId : Bool
  lastMin : Option ℚ
  lastMax : Option ℚ
  effectMin : Option ℚ
  effectMax : Option ℚ
  mask : Option Mask
  surfaceShown : Bool
  vis2D : Bool

/-- `VesselTreeGeneratorWidget.onAddSegmentation` (source lines 343-393):
raises `ValueError` when no output volume is selected; otherwise creates (or
reuses) the segmentation node and its segment, turns 2D visibility on and 3D
visibility off, and initializes the threshold range widget — and the
remembered last threshold values — to the volume's scalar range. -/
def onAddSegmentation (s : WState) : Option PErr × WState :=
  match s.outputVolume with
  | none => (some .invalidInput, s)
  | some vol =>
      (none, { s with segNode := true, segId := true, vis2D := true,
                      surfaceShown := false,
                      lastMin := some (volLo vol), lastMax := some (volHi vol) })

/-- `VesselTreeGeneratorWidget.onThresholdValuesChanged` (source lines
395-424): records the slider values as the last threshold pair; when no
segmentation or segment exists, or no output volume is selected, returns
silently; otherwise pushes the values into the Threshold effect's parameters
for the live preview overlay (no mask is committed). -/
def onThresholdValuesChanged (s : WState) (minimum maximum : ℚ) : Option PErr × WState :=
  let s1 := { s with lastMin := some minimum, lastMax := some maximum }
  if s1.segNode = false ∨ s1.segId = false then (none, s1)
  else
    match s1.outputVolume with
    | none => (none, s1)
    | some _ => (none, { s1 with effectMin := some minimum, effectMax := some maximum })

/-- `VesselTreeGeneratorWidget.onApplyThresholdShow3D` (source lines 426-520):
errors out (message box, early return) when the last threshold values were
never recorded; raises `ValueError` when no segmentation/segment exists or no
output volume is selected (caught and displayed, state untouched); otherwise
commits the thresholded mask, keeps the largest island (Islands effect,
`KEEP_LARGEST_ISLAND`, `MinimumSize` 1000), generates the closed surface and
turns 3D visibility on. -/
def onApplyThresholdShow3D (s : WState) : Option PErr × WState :=
  match s.lastMin, s.lastMax with
  | some lo, some hi =>
      if s.segNode = false ∨ s.segId = false then (some .invalidPipelineState, s)
      else
        match s.outputVolume with
        | none => (some .invalidInput, s)
        | some vol =>
            let mask0 := thresholdMask vol lo hi
            let mask1 := keepLargestIsland mask0 1000
            (none, { s with effectMin := some lo, effectMax := some hi,
                            mask := some mask1, surfaceShown := true })
  | _, _ => (some .invalidPipelineState, s)

/- ================  Concrete sample data  ================ -/

/-- A 1×1×1 all-zero volume. -/
def vol1 : Vol := ⟨1, 1, 1, 1, 1, 1, fun _ _ _ => 0⟩

/-- A 1×1×1 volume of constant value 200 (the sigmoid midpoint scenario). -/
def vol200 : Vol := ⟨1, 1, 1, 1, 1, 1, fun _ _ _ => 200⟩

/-- A 1×1×1 labelmap holding the non-binary value 2. -/
def volNB : Vol := ⟨1, 1, 1, 1, 1, 1, fun _ _ _ => 2⟩

/-- A 2×1×1 binary volume: one foreground voxel, one background voxel. -/
def vol2 : Vol := ⟨2, 1, 1, 1, 1, 1, fun i _ _ => if i = 0 then 1 else 0⟩

/-- An empty real-valued volume (placeholder output node). -/
def rvolBlank : RVol := ⟨0, 0, 0, 1, 1, 1, fun _ _ _ => 0⟩

/-- A 2×1×1 mask with a single foreground voxel. -/
def mask2 : Mask := ⟨2, 1, 1, 1, 1, 1, fun i j k => decide (i = 0 ∧ j = 0 ∧ k = 0)⟩

/-- A fresh session: output volume selected, no segmentation, no thresholds. -/
def sPre : WState := ⟨some vol1, false, false, none, none, none, none, none, false, false⟩

/-- A session with segmentation ready and an inverted threshold pair
(min 5 > max 3) recorded from the slider. -/
def sFull : WState := ⟨some vol1, true, true, some 5, some 3, none, none, none, false, false⟩

/- ================  Claim theorems  ================ -/

/-- Claim C9: the median filter stage, the sigmoid filter stage and the
distance transform stage each raise `InvalidInput` as their first action when
the input or the output volume is absent; the error is returned before any
filtered volume is computed or written (no `.ok` payload exists). -/
theorem stages_reject_absent_volumes
    (inV outV : Option Vol) (outR : Option RVol) (inN : Option VolNode)
    (radius : ℕ) (alpha beta omin omax : ℝ)
    (hmed : inV = none ∨ outV = none)
    (hsig : inV = none ∨ outR = none)
    (hmau : inN = none ∨ outV = none) :
    applyMedianFilter inV outV radius = .error .invalidInput ∧
    applySigmoidFilter inV outR alpha beta omin omax = .error .invalidInput ∧
    MaurerDistance inN outV = .error .invalidInput := by
  refine ⟨?_, ?_, ?_⟩
  · rcases hmed with h | h
    · subst h; cases outV <;> rfl
    · subst h; cases inV <;> rfl
  · rcases hsig with h | h
    · subst h; cases outR <;> rfl
    · subst h; cases inV <;> rfl
  · rcases hmau with h | h
    · subst h; cases outV <;> rfl
    · subst h; cases inN <;> rfl

/-- Witness for C9 at absent volumes. -/
theorem stages_reject_absent_volumes_witness :
    applyMedianFilter none none 1 = .error .invalidInput ∧
    applySigmoidFilter none none 60 200 0 1 = .error .invalidInput ∧
    MaurerDistance none none = .error .invalidInput :=
  stages_reject_absent_volumes none none none none 1 60 200 0 1
    (Or.inl rfl) (Or.inl rfl) (Or.inl rfl)

/-- Claim C7: a preprocessing run applies the median filter first exactly when
a radius is set (the noise-reduction buttons set it to 1 or 2), feeding its
output to the sigmoid filter; with no radius the median stage is skipped and
the sigmoid consumes the input directly; in both cases the sigmoid filter is
the unconditional final stage producing the processed volume. -/
theorem preprocessing_median_then_sigmoid (scene : Scene) (inp outp : Vol)
    (medianRadius : Option ℕ) (saveIntermediate : Bool) (alpha beta : ℝ) :
    (∀ r, medianRadius = some r →
      ∃ sc, onApplySettings scene (some inp) (some outp) medianRadius saveIntermediate alpha beta
          = .ok ⟨sc, sigmoidVol (medianVol inp r) alpha beta 0 1⟩) ∧
    (medianRadius = none →
      onApplySettings scene (some inp) (some outp) medianRadius saveIntermediate alpha beta
        = .ok ⟨scene, sigmoidVol inp alpha beta 0 1⟩) ∧
    onNoiseReductionLow true medianRadius = some 1 ∧
    onNoiseReductionHigh true medianRadius = some 2 := by
  refine ⟨?_, ?_, rfl, rfl⟩
  · rintro r rfl
    by_cases hs : saveIntermediate
    · exact ⟨setFirstNode scene "intermediate_median" (medianVol inp r),
        by simp [onApplySettings, hs]⟩
    · exact ⟨scene, by simp [onApplySettings, hs]⟩
  · rintro rfl
    rfl

/-- Witness for C7 with radius 1 set and with no radius. -/
theorem preprocessing_median_then_sigmoid_witness :
    (∃ sc, onApplySettings [] (some vol1) (some vol1) (some 1) false 60 200
        = .ok ⟨sc, sigmoidVol (medianVol vol1 1) 60 200 0 1⟩) ∧
    onApplySettings [] (some vol1) (some vol1) none false 60 200
        = .ok ⟨[], sigmoidVol vol1 60 200 0 1⟩ :=
  ⟨(preprocessing_median_then_sigmoid [] vol1 vol1 (some 1) false 60 200).1 1 rfl,
   (preprocessing_median_then_sigmoid [] vol1 vol1 none false 60 200).2.1 rfl⟩

/-- Every node written by `setFirstNode` is found again under its name. -/
theorem findNode_setFirstNode (sc : Scene) (n : String) (v : Vol) :
    findNode (setFirstNode sc n v) n = some v := by
  induction sc with
  | nil => simp [setFirstNode, findNode]
  | cons hd tl ih =>
      obtain ⟨m, w⟩ := hd
      by_cases h : m = n
      · simp [setFirstNode, findNode, h]
      · simp [setFirstNode, findNode, h, ih]

/-- Claim C8: with a median radius set, a preprocessing run with
`saveIntermediate` on leaves the median-filtered volume retrievable in the
scene under the name `intermediate_median`; with `saveIntermediate` off the
median-filtered volume lives only in the transient `TempMedianForSigmoid` node,
which is removed before the run returns, leaving the scene exactly as it was
(only the processed output volume remains). -/
theorem saveIntermediate_median_artifact (scene : Scene) (inp outp : Vol) (r : ℕ)
    (alpha beta : ℝ) :
    (onApplySettings scene (some inp) (some outp) (some r) true alpha beta
        = .ok ⟨setFirstNode scene "intermediate_median" (medianVol inp r),
               sigmoidVol (medianVol inp r) alpha beta 0 1⟩ ∧
     findNode (setFirstNode scene "intermediate_median" (medianVol inp r))
        "intermediate_median" = some (medianVol inp r)) ∧
    onApplySettings scene (some inp) (some outp) (some r) false alpha beta
        = .ok ⟨scene, sigmoidVol (medianVol inp r) alpha beta 0 1⟩ := by
  refine ⟨⟨by simp [onApplySettings], findNode_setFirstNode _ _ _⟩, ?_⟩
  simp [onApplySettings]

/-- Claim C10: a threshold-change event arriving with no segmentation node, no
segment id, or no selected output volume returns silently — no error — and the
successor state differs from the previous one only in the recorded last
threshold pair. -/
theorem thresholdChanged_silent_before_segmentation (s : WState) (lo hi : ℚ)
    (h : s.segNode = false ∨ s.segId = false ∨ s.outputVolume = none) :
    onThresholdValuesChanged s lo hi
      = (none, { s with lastMin := some lo, lastMax := some hi }) := by
  unfold onThresholdValuesChanged
  rcases h with h | h | h
  · simp [h]
  · simp [h]
  · by_cases h1 : s.segNode = false ∨ s.segId = false
    · simp [h1]
    · simp [h1, h]

/-- Witness for C10 in a fresh session. -/
theorem thresholdChanged_silent_before_segmentation_witness :
    onThresholdValuesChanged sPre 1 2
      = (none, { sPre with lastMin := some 1, lastMax := some 2 }) :=
  thresholdChanged_silent_before_segmentation sPre 1 2 (Or.inl rfl)

/-- Claim C1: with both volumes present, `alpha > 0` and the default output
range `[0,1]`, the sigmoid stage maps every voxel of intensity `I` to
`(outMax - outMin) / (1 + exp (-(I - beta) / alpha)) + outMin`; in particular
with `alpha = 60`, `beta = 200` an input voxel of value 200 maps to `0.5`. -/
theorem sigmoid_formula_and_midpoint (inp : Vol) (outp : RVol) (alpha beta : ℝ)
    (halpha : 0 < alpha) :
    applySigmoidFilter (some inp) (some outp) alpha beta 0 1
      = .ok (sigmoidVol inp alpha beta 0 1) ∧
    (∀ i j k, (sigmoidVol inp alpha beta 0 1).data i j k
        = (1 - 0) / (1 + Real.exp (-(((inp.data i j k : ℚ) : ℝ) - beta) / alpha)) + 0) ∧
    (∀ i j k, inp.data i j k = 200 →
        (sigmoidVol inp 60 200 0 1).data i j k = 1 / 2) := by
  refine ⟨rfl, fun i j k => rfl, fun i j k h => ?_⟩
  simp only [sigmoidVol, sigmoidVoxel, h]
  norm_num

/-- Witness for C1: the constant-200 volume at `alpha = 60`, `beta = 200`. -/
theorem sigmoid_formula_and_midpoint_witness :
    (0 : ℝ) < 60 ∧ (sigmoidVol vol200 60 200 0 1).data 0 0 0 = 1 / 2 :=
  ⟨by norm_num,
    (sigmoid_formula_and_midpoint vol200 rvolBlank 60 200 (by norm_num)).2.2 0 0 0 rfl⟩

/-- Counterexample to claim C2: a labelmap volume whose voxel value 2 is
neither 0 nor 1, on which `MaurerDistance` succeeds — it performs no binarity
check and never raises `NotBinaryVolume`. -/
theorem maurer_accepts_nonbinary_counterexample :
    volNB.data 0 0 0 = 2 ∧
    exceptOk (MaurerDistance (some ⟨NodeKind.labelMapVolume, volNB⟩) (some vol1)) = true ∧
    MaurerDistance (some ⟨NodeKind.labelMapVolume, volNB⟩) (some vol1)
      ≠ .error .notBinaryVolume := by
  refine ⟨rfl, rfl, ?_⟩
  intro h
  simp [MaurerDistance] at h

/-- Claim C2 (amended): the distance-transform stage itself raises only
`InvalidInput` (absent volume) or `TypeError` (non-labelmap node), never
`NotBinaryVolume`; non-binary data is instead handled upstream — the widget's
distance operation binarizes the exported labelmap (foreground is any value
greater than 0) before invoking the filter, so the filter always receives a
strictly binary volume. -/
theorem maurer_binarized_upstream (seg : SegmentationNode) (refV : Vol)
    (inN : Option VolNode) (outV : Option Vol) :
    (∀ e, MaurerDistance inN outV = .error e →
        e = PErr.invalidInput ∨ e = PErr.typeError) ∧
    (seg.isSegmentationNode = true → 1 ≤ seg.numberOfSegments →
      onComputeMaurerDistance (some seg) (some refV)
        = MaurerDistance
            (some ⟨NodeKind.labelMapVolume, binarizeLabelmap seg.exportedLabelmap⟩)
            (some ⟨0, 0, 0, 1, 1, 1, fun _ _ _ => 0⟩)) ∧
    (∀ i j k, (binarizeLabelmap seg.exportedLabelmap).data i j k = 0 ∨
              (binarizeLabelmap seg.exportedLabelmap).data i j k = 1) := by
  refine ⟨?_, ?_, ?_⟩
  · intro e he
    match inN, outV with
    | none, _ => cases outV <;> simp_all [MaurerDistance]
    | some inp, none => simp_all [MaurerDistance]
    | some inp, some o =>
        by_cases hk : inp.kind = NodeKind.labelMapVolume <;>
          simp_all [MaurerDistance]
  · intro hseg hnum
    have hlt : ¬ seg.numberOfSegments < 1 := by omega
    simp [onComputeMaurerDistance, hseg, hlt]
  · intro i j k
    by_cases h : 0 < seg.exportedLabelmap.data i j k
    · right; simp [binarizeLabelmap, h]
    · left; simp [binarizeLabelmap, h]

/-- Witness for the amended C2: a valid one-segment segmentation whose export
holds the non-binary value 2 flows through the binarization into the filter. -/
theorem maurer_binarized_upstream_witness :
    onComputeMaurerDistance (some ⟨true, 1, volNB⟩) (some vol1)
      = MaurerDistance (some ⟨NodeKind.labelMapVolume, binarizeLabelmap volNB⟩)
          (some ⟨0, 0, 0, 1, 1, 1, fun _ _ _ => 0⟩) :=
  (maurer_binarized_upstream ⟨true, 1, volNB⟩ vol1 none none).2.1 rfl (by norm_num)

/-- Counterexample to claim C6: running only `onAddSegmentation` — the
threshold preview `onThresholdValuesChanged` is never invoked — already
initializes the remembered threshold pair to the volume's scalar range, so the
subsequent finalize call succeeds (no `InvalidPipelineState`), refuting the
claim that finalizing before any preview ran must raise. -/
theorem finalize_after_add_segmentation_counterexample :
    (onAddSegmentation sPre).1 = none ∧
    (onApplyThresholdShow3D (onAddSegmentation sPre).2).1 = none := by
  constructor
  · rfl
  · rfl

/-- Claim C6 (amended): finalize raises `InvalidPipelineState` — leaving the
state untouched, hence performing no segmentation, surface or view changes —
exactly when the threshold pair was never recorded (neither a segmentation was
added nor the slider moved) or no segmentation node/segment exists; adding a
segmentation alone, however, records the volume's scalar range as the
threshold pair, after which finalize proceeds even though no preview ran. -/
theorem finalize_invalid_state_guards (s : WState)
    (h : s.lastMin = none ∨ s.lastMax = none ∨ s.segNode = false ∨ s.segId = false) :
    onApplyThresholdShow3D s = (some .invalidPipelineState, s) := by
  unfold onApplyThresholdShow3D
  rcases h with h | h | h | h
  · cases hM : s.lastMax <;> simp [h, hM]
  · cases hm : s.lastMin <;> simp [h, hm]
  · cases hm : s.lastMin <;> cases hM : s.lastMax <;> simp [h, hm, hM]
  · cases hm : s.lastMin <;> cases hM : s.lastMax <;> simp [h, hm, hM]

/-- Witness for the amended C6: a fresh session (no thresholds recorded). -/
theorem finalize_invalid_state_guards_witness :
    onApplyThresholdShow3D sPre = (some .invalidPipelineState, sPre) :=
  finalize_invalid_state_guards sPre (Or.inl rfl)

/-- Squared inter-voxel distance is positive for distinct voxels under
positive spacing. -/
theorem sqDist_pos {s : ℚ × ℚ × ℚ} (hs1 : 0 < s.1) (hs2 : 0 < s.2.1)
    (hs3 : 0 < s.2.2) {p q : ℕ × ℕ × ℕ} (hne : p ≠ q) :
    0 < sqDist s p q := by
  have hcoord : p.1 ≠ q.1 ∨ p.2.1 ≠ q.2.1 ∨ p.2.2 ≠ q.2.2 := by
    by_contra hall
    push_neg at hall
    exact hne (Prod.ext hall.1 (Prod.ext hall.2.1 hall.2.2))
  unfold sqDist
  have sq1 : (0:ℚ) ≤ (s.1 * (((p.1 : ℤ) - (q.1 : ℤ) : ℤ) : ℚ)) ^ 2 := sq_nonneg _
  have sq2 : (0:ℚ) ≤ (s.2.1 * (((p.2.1 : ℤ) - (q.2.1 : ℤ) : ℤ) : ℚ)) ^ 2 := sq_nonneg _
  have sq3 : (0:ℚ) ≤ (s.2.2 * (((p.2.2 : ℤ) - (q.2.2 : ℤ) : ℤ) : ℚ)) ^ 2 := sq_nonneg _
  rcases hcoord with h | h | h
  · have hz : ((p.1 : ℤ) - (q.1 : ℤ)) ≠ 0 := sub_ne_zero.mpr (by exact_mod_cast h)
    have : (0:ℚ) < (s.1 * (((p.1 : ℤ) - (q.1 : ℤ) : ℤ) : ℚ)) ^ 2 :=
      sq_pos_of_ne_zero (mul_ne_zero (ne_of_gt hs1) (by exact_mod_cast hz))
    linarith
  · have hz : ((p.2.1 : ℤ) - (q.2.1 : ℤ)) ≠ 0 := sub_ne_zero.mpr (by exact_mod_cast h)
    have : (0:ℚ) < (s.2.1 * (((p.2.1 : ℤ) - (q.2.1 : ℤ) : ℤ) : ℚ)) ^ 2 :=
      sq_pos_of_ne_zero (mul_ne_zero (ne_of_gt hs2) (by exact_mod_cast hz))
    linarith
  · have hz : ((p.2.2 : ℤ) - (q.2.2 : ℤ)) ≠ 0 := sub_ne_zero.mpr (by exact_mod_cast h)
    have : (0:ℚ) < (s.2.2 * (((p.2.2 : ℤ) - (q.2.2 : ℤ) : ℤ) : ℚ)) ^ 2 :=
      sq_pos_of_ne_zero (mul_ne_zero (ne_of_gt hs3) (by exact_mod_cast hz))
    linarith

/-- The minimal squared distance to a nonempty voxel set not containing `p`
is positive. -/
theorem minSqDistTo_pos {s : ℚ × ℚ × ℚ} (hs1 : 0 < s.1) (hs2 : 0 < s.2.1)
    (hs3 : 0 < s.2.2) {t : Finset (ℕ × ℕ × ℕ)} (ht : t.Nonempty)
    {p : ℕ × ℕ × ℕ} (hp : p ∉ t) :
    0 < minSqDistTo s t p := by
  unfold minSqDistTo
  rw [dif_pos ht]
  rw [Finset.lt_min'_iff]
  intro y hy
  obtain ⟨q, hq, rfl⟩ := Finset.mem_image.mp hy
  exact sqDist_pos hs1 hs2 hs3 (fun hpq => hp (hpq ▸ hq))

/-- Claim C3: on a strictly binary volume with positive spacing, the distance
transform as invoked by the source (`UseImageSpacing = True`,
`SquaredDistance = False`, `BackgroundValue = 0`, `InsideIsPositive = False`)
assigns every foreground voxel — in particular every voxel strictly inside the
foreground region — a negative value and every background voxel — in
particular every voxel strictly outside — a positive value, whose square is
the minimal squared physical distance (in the volume's spacing) to the
complementary region. -/
theorem maurer_sign_and_physical_units (v : Vol)
    (hsx : 0 < v.sx) (hsy : 0 < v.sy) (hsz : 0 < v.sz)
    (hbin : ∀ p ∈ voxels v, at3 v p = 0 ∨ at3 v p = 1)
    (i j k : ℕ) (hb : v.inB i j k) :
    (v.data i j k ≠ 0 → (bgSet v 0).Nonempty →
        (signedMaurer v true false 0 false).data i j k < 0 ∧
        ((signedMaurer v true false 0 false).data i j k) ^ 2
          = ((minSqDistTo (v.sx, v.sy, v.sz) (bgSet v 0) (i, j, k) : ℚ) : ℝ)) ∧
    (v.data i j k = 0 → (objSet v 0).Nonempty →
        0 < (signedMaurer v true false 0 false).data i j k ∧
        ((signedMaurer v true false 0 false).data i j k) ^ 2
          = ((minSqDistTo (v.sx, v.sy, v.sz) (objSet v 0) (i, j, k) : ℚ) : ℝ)) := by
  constructor
  · intro hfg hbg
    have hp : (i, j, k) ∉ bgSet v 0 := by
      intro hmem
      exact hfg ((Finset.mem_filter.mp hmem).2)
    have hmpos : 0 < minSqDistTo (v.sx, v.sy, v.sz) (bgSet v 0) (i, j, k) :=
      minSqDistTo_pos hsx hsy hsz hbg hp
    have hval : (signedMaurer v true false 0 false).data i j k
        = -Real.sqrt ((minSqDistTo (v.sx, v.sy, v.sz) (bgSet v 0) (i, j, k) : ℚ) : ℝ) := by
      simp only [signedMaurer, effSpacing, if_true]
      rw [if_pos (by simpa [at3] using hfg), if_neg (by simp), if_neg (by simp)]
    rw [hval]
    have hsq : (0:ℝ) < ((minSqDistTo (v.sx, v.sy, v.sz) (bgSet v 0) (i, j, k) : ℚ) : ℝ) := by
      exact_mod_cast hmpos
    constructor
    · simpa using Real.sqrt_pos.mpr hsq
    · rw [neg_pow, Real.sq_sqrt (le_of_lt hsq)]
      ring
  · intro hbgv hobj
    have hp : (i, j, k) ∉ objSet v 0 := by
      intro hmem
      exact (Finset.mem_filter.mp hmem).2 hbgv
    have hmpos : 0 < minSqDistTo (v.sx, v.sy, v.sz) (objSet v 0) (i, j, k) :=
      minSqDistTo_pos hsx hsy hsz hobj hp
    have hval : (signedMaurer v true false 0 false).data i j k
        = Real.sqrt ((minSqDistTo (v.sx, v.sy, v.sz) (objSet v 0) (i, j, k) : ℚ) : ℝ) := by
      simp only [signedMaurer, effSpacing, if_true]
      rw [if_neg (by simpa [at3] using hbgv), if_neg (by simp), if_neg (by simp)]
    rw [hval]
    have hsq : (0:ℝ) < ((minSqDistTo (v.sx, v.sy, v.sz) (objSet v 0) (i, j, k) : ℚ) : ℝ) := by
      exact_mod_cast hmpos
    exact ⟨Real.sqrt_pos.mpr hsq, Real.sq_sqrt (le_of_lt hsq)⟩

/-- Witness for C3: the two-voxel binary volume — the foreground voxel gets a
negative distance, the background voxel a positive one. -/
theorem maurer_sign_and_physical_units_witness :
    ((signedMaurer vol2 true false 0 false).data 0 0 0 < 0 ∧
      ((signedMaurer vol2 true false 0 false).data 0 0 0) ^ 2
        = ((minSqDistTo (vol2.sx, vol2.sy, vol2.sz) (bgSet vol2 0) (0, 0, 0) : ℚ) : ℝ)) ∧
    (0 < (signedMaurer vol2 true false 0 false).data 1 0 0 ∧
      ((signedMaurer vol2 true false 0 false).data 1 0 0) ^ 2
        = ((minSqDistTo (vol2.sx, vol2.sy, vol2.sz) (objSet vol2 0) (1, 0, 0) : ℚ) : ℝ)) :=
  ⟨(maurer_sign_and_physical_units vol2 (by decide) (by decide) (by decide)
      (by decide) 0 0 0 (by decide)).1 (by decide) (by decide),
   (maurer_sign_and_physical_units vol2 (by decide) (by decide) (by decide)
      (by decide) 1 0 0 (by decide)).2 (by decide) (by decide)⟩

/-- Along any walk of the island graph, foreground is preserved (edges join
foreground voxels only). -/
theorem walk_fg (m : Mask) : ∀ {a b : Fin (m.nx * (m.ny * m.nz))},
    (islandGraph m).Walk a b → fgV m a.val = true → fgV m b.val = true
  | _, _, .nil, ha => ha
  | _, _, .cons hadj p, _ => walk_fg m p hadj.2.2.1

/-- Vertices of one island have equal island sizes. -/
theorem reach_compSize (m : Mask) {a b : Fin (m.nx * (m.ny * m.nz))}
    (hab : (islandGraph m).Reachable a b) :
    compSize m a = compSize m b := by
  unfold compSize
  apply congrArg
  ext x
  simp only [Finset.mem_filter, Finset.mem_univ, true_and]
  exact ⟨fun hx => hab.symm.trans hx, fun hx => hab.trans hx⟩

/-- An all-background mask passes through the Islands stage unchanged. -/
theorem keepLargestIsland_allFalse (m : Mask)
    (hall : ∀ i j k, m.data i j k = false) (ms : ℕ) :
    keepLargestIsland m ms = m := by
  unfold keepLargestIsland
  rw [dif_neg]
  rintro ⟨a, ha⟩
  have hfg : fgV m a.val = true := by
    have hmem := ha
    simp only [fgVerts, Finset.mem_filter] at hmem
    exact hmem.2
  simp [fgV, at3, hall] at hfg

/-- Counterexample to claim C4: with the inverted pair min 5 > max 3, neither
the preview nor the finalize path raises any error (`InvalidRange` included);
the finalize path commits a label volume. -/
theorem threshold_no_invalid_range_counterexample :
    (5 : ℚ) > 3 ∧
    (onThresholdValuesChanged sFull 5 3).1 = none ∧
    (onApplyThresholdShow3D sFull).1 = none ∧
    (onApplyThresholdShow3D sFull).2.mask
      = some (keepLargestIsland (thresholdMask vol1 5 3) 1000) := by
  exact ⟨by norm_num, rfl, rfl, rfl⟩

/-- Claim C4 (amended): no `thresholdMin ≤ thresholdMax` validation exists:
with `thresholdMin > thresholdMax` both the preview and the finalize path
proceed without error, applying the thresholds as given; the committed segment
label volume is then all-background, since no voxel satisfies the empty
range. -/
theorem threshold_inverted_range_no_validation (s : WState) (vol : Vol) (lo hi : ℚ)
    (hvol : s.outputVolume = some vol) (hseg : s.segNode = true) (hid : s.segId = true)
    (hlo : s.lastMin = some lo) (hhi : s.lastMax = some hi) (hrange : hi < lo) :
    (onThresholdValuesChanged s lo hi).1 = none ∧
    onApplyThresholdShow3D s
      = (none, { s with
          effectMin := some lo, effectMax := some hi,
          mask := some (keepLargestIsland (thresholdMask vol lo hi) 1000),
          surfaceShown := true }) ∧
    ∀ i j k, (keepLargestIsland (thresholdMask vol lo hi) 1000).data i j k = false := by
  have hall : ∀ i j k, (thresholdMask vol lo hi).data i j k = false := by
    intro i j k
    simp only [thresholdMask, decide_eq_false_iff_not]
    rintro ⟨-, h1, h2⟩
    exact absurd (le_trans h1 h2) (not_le.mpr hrange)
  refine ⟨?_, ?_, ?_⟩
  · simp [onThresholdValuesChanged, hseg, hid, hvol]
  · simp [onApplyThresholdShow3D, hlo, hhi, hseg, hid, hvol]
  · intro i j k
    rw [keepLargestIsland_allFalse _ hall]
    exact hall i j k

/-- Witness for the amended C4 at the concrete session `sFull` (min 5 > max 3). -/
theorem threshold_inverted_range_no_validation_witness :
    (onThresholdValuesChanged sFull 5 3).1 = none ∧
    onApplyThresholdShow3D sFull
      = (none, { sFull with
          effectMin := some 5, effectMax := some 3,
          mask := some (keepLargestIsland (thresholdMask vol1 5 3) 1000),
          surfaceShown := true }) ∧
    ∀ i j k, (keepLargestIsland (thresholdMask vol1 5 3) 1000).data i j k = false :=
  threshold_inverted_range_no_validation sFull vol1 5 3 rfl rfl rfl rfl rfl (by norm_num)

/-- Claim C5: on a binary volume with at least one foreground voxel, the
finalize step's Islands stage (as called with its default minimum island size
of 1000) retains exactly one island: there is a representative `r` such that
an in-bounds voxel survives iff it is connected to `r`; every voxel of `r`'s
island was foreground; `r`'s island has maximal voxel count among all islands;
and among the voxels of all equally-maximal islands, `r` is the
first-encountered in scan order (lowest label id), so ties are broken
deterministically towards `r`'s island.  All other foreground voxels are
cleared to background. -/
theorem keepLargest_retains_max_island (m : Mask) (h : (fgVerts m).Nonempty) :
    ∃ r : Fin (m.nx * (m.ny * m.nz)),
      fgV m r.val = true ∧
      (∀ i j k, ∀ hb : m.inB i j k,
        ((keepLargestIsland m 1000).data i j k = true ↔
          (islandGraph m).Reachable r ⟨encV m i j k, encV_lt m hb.1 hb.2.1 hb.2.2⟩)) ∧
      (∀ i j k, ¬ m.inB i j k → (keepLargestIsland m 1000).data i j k = false) ∧
      (∀ a, (islandGraph m).Reachable r a → fgV m a.val = true) ∧
      (∀ a, fgV m a.val = true → compSize m a ≤ compSize m r) ∧
      (∀ a b, fgV m a.val = true → compSize m a = compSize m r →
        (islandGraph m).Reachable a b → r ≤ b) := by
  have hmax_mem := Finset.max'_mem ((fgVerts m).image (compSize m)) (h.image _)
  obtain ⟨r0, hr0F, hr0s⟩ := Finset.mem_image.mp hmax_mem
  have hw : ((fgVerts m).filter
      (fun a => compSize m a = ((fgVerts m).image (compSize m)).max' (h.image _))).Nonempty :=
    ⟨r0, Finset.mem_filter.mpr ⟨hr0F, hr0s⟩⟩
  refine ⟨((fgVerts m).filter
      (fun a => compSize m a = ((fgVerts m).image (compSize m)).max' (h.image _))).min' hw,
      ?_, ?_, ?_, ?_, ?_, ?_⟩
  case _ =>
    have hrW := Finset.min'_mem _ hw
    exact (Finset.mem_filter.mp (Finset.mem_filter.mp hrW).1).2
  case _ =>
    intro i j k hb
    have hkeep : (keepLargestIsland m 1000).data i j k
        = decide ((islandGraph m).Reachable
            (((fgVerts m).filter (fun a => compSize m a
                = ((fgVerts m).image (compSize m)).max' (h.image _))).min' hw)
            ⟨encV m i j k, encV_lt m hb.1 hb.2.1 hb.2.2⟩) := by
      unfold keepLargestIsland
      rw [dif_pos h]
      exact dif_pos hb
    rw [hkeep]
    exact decide_eq_true_iff
  case _ =>
    intro i j k hb
    unfold keepLargestIsland
    rw [dif_pos h]
    exact dif_neg hb
  case _ =>
    intro a hra
    have hrfg : fgV m (((fgVerts m).filter (fun a => compSize m a
        = ((fgVerts m).image (compSize m)).max' (h.image _))).min' hw).val = true :=
      (Finset.mem_filter.mp (Finset.mem_filter.mp (Finset.min'_mem _ hw)).1).2
    obtain ⟨w⟩ := hra
    exact walk_fg m w hrfg
  case _ =>
    intro a hafg
    have hrsize : compSize m (((fgVerts m).filter (fun a => compSize m a
        = ((fgVerts m).image (compSize m)).max' (h.image _))).min' hw)
        = ((fgVerts m).image (compSize m)).max' (h.image _) :=
      (Finset.mem_filter.mp (Finset.min'_mem _ hw)).2
    rw [hrsize]
    exact Finset.le_max' _ _
      (Finset.mem_image_of_mem _ (Finset.mem_filter.mpr ⟨Finset.mem_univ a, hafg⟩))
  case _ =>
    intro a b hafg hsize hab
    have hrsize : compSize m (((fgVerts m).filter (fun a => compSize m a
        = ((fgVerts m).image (compSize m)).max' (h.image _))).min' hw)
        = ((fgVerts m).image (compSize m)).max' (h.image _) :=
      (Finset.mem_filter.mp (Finset.min'_mem _ hw)).2
    have hbfg : fgV m b.val = true := by
      obtain ⟨w⟩ := hab
      exact walk_fg m w hafg
    have hbsize : compSize m b = compSize m a := (reach_compSize m hab).symm
    have hbW : b ∈ (fgVerts m).filter (fun a => compSize m a
        = ((fgVerts m).image (compSize m)).max' (h.image _)) :=
      Finset.mem_filter.mpr ⟨Finset.mem_filter.mpr ⟨Finset.mem_univ b, hbfg⟩,
        by rw [hbsize, hsize, hrsize]⟩
    exact Finset.min'_le _ b hbW

/-- Witness for C5: the two-voxel mask with a single foreground voxel. -/
theorem keepLargest_retains_max_island_witness :
    (fgVerts mask2).Nonempty ∧
    (∃ r : Fin (mask2.nx * (mask2.ny * mask2.nz)),
      fgV mask2 r.val = true ∧
      (∀ i j k, ∀ hb : mask2.inB i j k,
        ((keepLargestIsland mask2 1000).data i j k = true ↔
          (islandGraph mask2).Reachable r
            ⟨encV mask2 i j k, encV_lt mask2 hb.1 hb.2.1 hb.2.2⟩)) ∧
      (∀ i j k, ¬ mask2.inB i j k → (keepLargestIsland mask2 1000).data i j k = false) ∧
      (∀ a, (islandGraph mask2).Reachable r a → fgV mask2 a.val = true) ∧
      (∀ a, fgV mask2 a.val = true → compSize mask2 a ≤ compSize mask2 r) ∧
      (∀ a b, fgV mask2 a.val = true → compSize mask2 a = compSize mask2 r →
        (islandGraph mask2).Reachable a b → r ≤ b)) :=
  ⟨by decide, keepLargest_retains_max_island mask2 (by decide)⟩

end VesselTree
